import Mathlib

/-!
Shallow embedding of the lox-base tree-walking interpreter.

Sources embedded:
  * src/lox/ast.py          — the syntax-tree node model and its eval/validate methods
  * src/lox/runtime.py      — runtime values (LoxClass, LoxInstance, LoxFunction) and operators
  * src/lox/transformer.py  — the parse-tree-to-AST transformer (operator wiring, desugaring)

Modelling conventions:
  * Python floats are modelled as rationals (ℚ).  No claim depends on rounding;
    the one numeric claim (division by zero) is decided by Python raising
    ZeroDivisionError on a zero divisor, which is independent of the float format.
  * Python exceptions become explicit error results (PyErr).  The non-local
    LoxReturn signal becomes an explicit statement-flow constructor.
  * The scope context (class Ctx, file ctx.py) is NOT under src/.  It is
    modelled from the spec (section 4.2): a chain of mutable frames, innermost
    first; lookup searches innermost-to-outermost; assign mutates the nearest
    frame containing the name and fails otherwise; var_def writes into the
    innermost frame; push returns a new chain extended with a fresh frame.
    Frames are kept in a store (St.frames) addressed by index so that closures
    can share frames by reference, and a chain is a list of frame indices.
  * Mutable LoxInstance objects live in a store (St.insts) addressed by index.
  * Evaluation is total via a fuel parameter; `none` means fuel exhausted.
-/

namespace Lox

/-- ast.py `KEYWORDS`: the reserved-word set. -/
def KEYWORDS : List String :=
  ["and", "class", "else", "false", "for", "fun", "if", "nil",
   "or", "print", "return", "super", "this", "true", "var", "while"]

/-- ast.py `Value = bool | str | float | None`: the literal payload alias used
by `Literal` nodes (runtime values are the separate type `Value` below). -/
inductive Lit where
  | nilL
  | boolL (b : Bool)
  | numL (q : ℚ)
  | strL (s : String)
deriving DecidableEq

/-- Defunctionalised tags for the binary operator functions of runtime.py that
transformer.py installs into `BinOp.op` (`op_handler(op.add)` etc.).  The
transformer only ever stores these particular callables, so `BinOp.eval`'s
`self.op(left, right)` is embedded as a dispatch on the tag (`applyBin`). -/
inductive BinTag where
  | addT | subT | mulT | truedivT | gtT | geT | ltT | leT | eqT | neT
deriving DecidableEq

/-- Tags for the unary callables installed by transformer.py: `not_` stores
`lambda x: not x` (Python truthiness negation, NOT runtime.not_) and `neg`
stores `lambda x: -x` (Python unary minus). -/
inductive UnTag where
  | pyNotT | pyNegT
deriving DecidableEq

mutual
/-- ast.py expression nodes (class Expr subclasses), one constructor per
dataclass, carrying exactly the dataclass fields. -/
inductive Expr where
  | lit (value : Lit)
  | var (name : String)
  | binop (left : Expr) (right : Expr) (op : BinTag)
  | unop (op : UnTag) (operand : Expr)
  | andE (left : Expr) (right : Expr)
  | orE (left : Expr) (right : Expr)
  | call (callee : Expr) (params : List Expr)
  | thisE
  | superE (name : String)
  | assign (name : String) (value : Expr)
  | getattrE (obj : Expr) (attr : String)
  | setattrE (obj : Expr) (attr : String) (value : Expr)

/-- ast.py statement nodes.  A bare expression in statement position (the
transformer's `expr_stmt` returns the expression itself, and Program/Block
just call `.eval` and drop the value) is `exprStmt`.  `functionS.body` and
method bodies store the body Block's statement list, mirroring
`Function.eval`'s use of `self.body.stmts`; a class method is the triple
(name, params, body statements) of its `Function` node. -/
inductive Stmt where
  | exprStmt (e : Expr)
  | printS (expr : Expr)
  | returnS (value : Option Expr)
  | varDef (name : String) (value : Expr)
  | ifS (cond : Expr) (thenB : Stmt) (elseB : Option Stmt)
  | whileS (cond : Expr) (body : Stmt)
  | block (stmts : List Stmt)
  | functionS (name : String) (params : List String) (body : List Stmt)
  | classS (name : String) (methods : List (String × List String × List Stmt)) (base : Option String)
end

/-- runtime.py `LoxFunction` (a dataclass): name, positional parameter names,
body statements, and the captured defining context (a chain of frame ids). -/
structure FnData where
  name : String
  params : List String
  body : List Stmt
  ctx : List Nat

/-- Runtime values.  Mirrors what evaluation can produce: the primitives of the
ast.py alias, plus Python ints (producible only by unary minus on a bool),
LoxFunction values, LoxClass values (runtime.py's LoxClass stores ONLY the
name — its `__init__(self, name)` has no method table and no superclass
field), and heap references to LoxInstance objects. -/
inductive Value where
  | nil
  | bool (b : Bool)
  | num (q : ℚ)
  | str (s : String)
  | intV (z : ℤ)
  | fn (f : FnData)
  | cls (name : String)
  | inst (id : Nat)

/-- Python exception kinds that evaluation can raise. -/
inductive PyErr where
  | nameError       -- NameError (Var/This wrap KeyError; unresolved assignment)
  | keyError        -- raw KeyError (Super.eval has no try/except)
  | typeError       -- TypeError (not callable; wrong constructor arity; bad unary operand)
  | attributeError  -- AttributeError (missing attribute / missing get_method)
  | loxError        -- LoxError (operator type mismatch, non-instance property access, bad superclass)
  | zeroDivision    -- ZeroDivisionError from Python float division by zero
  | valueError      -- ValueError from zip(..., strict=True) on an arity mismatch
deriving DecidableEq

/-- One scope frame: a name-to-value mapping (insertion-ordered, like a dict). -/
structure Frame where
  bindings : List (String × Value)

/-- runtime.py `LoxInstance`: `__init__` stores the class in the attribute
`cls`; every later `setattr` adds to the same object dict.  The object dict
{"cls": class} ∪ fields is split here into the `cls` slot and the remaining
`fields`, with attribute access on the name "cls" routed to the slot. -/
structure InstData where
  cls : Value
  fields : List (String × Value)

/-- The mutable world: the frame store, the instance store, and the text
printed so far (one entry per `print`). -/
structure St where
  frames : List Frame
  insts : List InstData
  output : List String

/-- A context chain: frame ids, innermost first (spec 4.2). -/
abbrev Ctx := List Nat

/-- Dict lookup on an association list. -/
def alGet : List (String × Value) → String → Option Value
  | [], _ => none
  | (k, v) :: rest, n => if k = n then some v else alGet rest n

/-- Dict write: replace the binding if the key exists, append otherwise. -/
def alSet : List (String × Value) → String → Value → List (String × Value)
  | [], n, v => [(n, v)]
  | (k, w) :: rest, n, v =>
      if k = n then (n, v) :: rest else (k, w) :: alSet rest n v

/-- Update an existing key only; `none` when the key is absent. -/
def alAssign : List (String × Value) → String → Value → Option (List (String × Value))
  | [], _, _ => none
  | (k, w) :: rest, n, v =>
      if k = n then some ((n, v) :: rest)
      else (alAssign rest n v).map (fun b => (k, w) :: b)

/-- Read name `n` in frame `fid`. -/
def St.frameGet (st : St) (fid : Nat) (n : String) : Option Value :=
  (st.frames[fid]?).bind fun f => alGet f.bindings n

/-- Replace frame `fid`. -/
def St.setFrame (st : St) (fid : Nat) (f : Frame) : St :=
  { st with frames := st.frames.set fid f }

/-- Allocate a fresh frame seeded with `b`; returns the new store and the new
frame's id (spec 4.2 `push`, together with consing the id onto the chain). -/
def St.allocFrame (st : St) (b : List (String × Value)) : St × Nat :=
  ({ st with frames := st.frames ++ [⟨b⟩] }, st.frames.length)

/-- Allocate a fresh LoxInstance. -/
def St.allocInst (st : St) (d : InstData) : St × Nat :=
  ({ st with insts := st.insts ++ [d] }, st.insts.length)

/-- Modelled from the spec: ctx.py is not under src/.  Spec 4.2 `lookup`:
search frames innermost-first; absent everywhere is a lookup failure. -/
def ctxGet : Ctx → St → String → Option Value
  | [], _, _ => none
  | fid :: rest, st, n =>
      match st.frameGet fid n with
      | some v => some v
      | none => ctxGet rest st n

/-- Modelled from the spec: spec 4.2 `assign`: mutate the nearest frame already
containing the name; fail (none) when no frame has it. -/
def ctxAssign : Ctx → St → String → Value → Option St
  | [], _, _, _ => none
  | fid :: rest, st, n, v =>
      match st.frames[fid]? with
      | none => ctxAssign rest st n v
      | some f =>
          match alAssign f.bindings n v with
          | some b => some (st.setFrame fid ⟨b⟩)
          | none => ctxAssign rest st n v

/-- Modelled from the spec: spec 4.2 `declare` (`var_def`): always write into
the current innermost frame.  (The chain is never empty at runtime; the empty
case is dead code.) -/
def ctxVarDef : Ctx → St → String → Value → St
  | [], st, _, _ => st
  | fid :: _, st, n, v =>
      match st.frames[fid]? with
      | some f => st.setFrame fid ⟨alSet f.bindings n v⟩
      | none => st

/-- runtime.py `truthy`: `not (value is False or value is None)`. -/
def truthy : Value → Bool
  | .bool false => false
  | .nil => false
  | _ => true

/-- runtime.py `not_`: `not truthy(value)` (a Python bool). -/
def not_ (v : Value) : Value := .bool (!truthy v)

/-- Python truthiness (`bool(x)`), as used by the transformer's
`lambda x: not x`: None, False, 0.0, "", 0 are falsy; every LoxFunction,
LoxClass and LoxInstance object is truthy (no `__bool__`/`__len__`). -/
def pyTruthy : Value → Bool
  | .nil => false
  | .bool b => b
  | .num q => q ≠ 0
  | .str s => s ≠ ""
  | .intV z => z ≠ 0
  | .fn _ => true
  | .cls _ => true
  | .inst _ => true

/-- runtime.py `_ensure_number`: anything but a float raises LoxError. -/
def ensureNumber : Value → Except PyErr ℚ
  | .num q => .ok q
  | _ => .error .loxError

/-- runtime.py `add`: two floats add, two strings concatenate, otherwise
LoxError "Operands must be two numbers or two strings". -/
def add : Value → Value → Except PyErr Value
  | .num a, .num b => .ok (.num (a + b))
  | .str a, .str b => .ok (.str (a ++ b))
  | _, _ => .error .loxError

/-- runtime.py `sub`. -/
def sub (a b : Value) : Except PyErr Value :=
  match ensureNumber a with
  | .error e => .error e
  | .ok x =>
      match ensureNumber b with
      | .error e => .error e
      | .ok y => .ok (.num (x - y))

/-- runtime.py `mul`. -/
def mul (a b : Value) : Except PyErr Value :=
  match ensureNumber a with
  | .error e => .error e
  | .ok x =>
      match ensureNumber b with
      | .error e => .error e
      | .ok y => .ok (.num (x * y))

/-- runtime.py `truediv`: `_ensure_number(a) / _ensure_number(b)`.  The
function itself performs no zero test, but Python float division raises
ZeroDivisionError on a zero divisor (it does NOT return an IEEE infinity). -/
def truediv (a b : Value) : Except PyErr Value :=
  match ensureNumber a with
  | .error e => .error e
  | .ok x =>
      match ensureNumber b with
      | .error e => .error e
      | .ok y => if y = 0 then .error .zeroDivision else .ok (.num (x / y))

/-- runtime.py `gt`. -/
def gt (a b : Value) : Except PyErr Value :=
  match ensureNumber a with
  | .error e => .error e
  | .ok x =>
      match ensureNumber b with
      | .error e => .error e
      | .ok y => .ok (.bool (decide (x > y)))

/-- runtime.py `ge`. -/
def ge (a b : Value) : Except PyErr Value :=
  match ensureNumber a with
  | .error e => .error e
  | .ok x =>
      match ensureNumber b with
      | .error e => .error e
      | .ok y => .ok (.bool (decide (x ≥ y)))

/-- runtime.py `lt`. -/
def lt (a b : Value) : Except PyErr Value :=
  match ensureNumber a with
  | .error e => .error e
  | .ok x =>
      match ensureNumber b with
      | .error e => .error e
      | .ok y => .ok (.bool (decide (x < y)))

/-- runtime.py `le`. -/
def le (a b : Value) : Except PyErr Value :=
  match ensureNumber a with
  | .error e => .error e
  | .ok x =>
      match ensureNumber b with
      | .error e => .error e
      | .ok y => .ok (.bool (decide (x ≤ y)))

mutual
/-- Structural equality on expressions (used by `eqValue` on LoxFunction
values, which are dataclasses compared field by field). -/
def beqExpr : Expr → Expr → Bool
  | .lit a, .lit b => a = b
  | .var a, .var b => a = b
  | .binop l1 r1 o1, .binop l2 r2 o2 => beqExpr l1 l2 && beqExpr r1 r2 && o1 = o2
  | .unop o1 x1, .unop o2 x2 => o1 = o2 && beqExpr x1 x2
  | .andE l1 r1, .andE l2 r2 => beqExpr l1 l2 && beqExpr r1 r2
  | .orE l1 r1, .orE l2 r2 => beqExpr l1 l2 && beqExpr r1 r2
  | .call c1 p1, .call c2 p2 => beqExpr c1 c2 && beqExprs p1 p2
  | .thisE, .thisE => true
  | .superE a, .superE b => a = b
  | .assign n1 v1, .assign n2 v2 => n1 = n2 && beqExpr v1 v2
  | .getattrE o1 a1, .getattrE o2 a2 => beqExpr o1 o2 && a1 = a2
  | .setattrE o1 a1 v1, .setattrE o2 a2 v2 => beqExpr o1 o2 && a1 = a2 && beqExpr v1 v2
  | _, _ => false

def beqExprs : List Expr → List Expr → Bool
  | [], [] => true
  | x :: xs, y :: ys => beqExpr x y && beqExprs xs ys
  | _, _ => false

def beqStmt : Stmt → Stmt → Bool
  | .exprStmt a, .exprStmt b => beqExpr a b
  | .printS a, .printS b => beqExpr a b
  | .returnS none, .returnS none => true
  | .returnS (some a), .returnS (some b) => beqExpr a b
  | .varDef n1 v1, .varDef n2 v2 => n1 = n2 && beqExpr v1 v2
  | .ifS c1 t1 none, .ifS c2 t2 none => beqExpr c1 c2 && beqStmt t1 t2
  | .ifS c1 t1 (some e1), .ifS c2 t2 (some e2) =>
      beqExpr c1 c2 && beqStmt t1 t2 && beqStmt e1 e2
  | .whileS c1 b1, .whileS c2 b2 => beqExpr c1 c2 && beqStmt b1 b2
  | .block a, .block b => beqStmts a b
  | .functionS n1 p1 b1, .functionS n2 p2 b2 => n1 = n2 && p1 = p2 && beqStmts b1 b2
  | .classS n1 m1 b1, .classS n2 m2 b2 => n1 = n2 && beqMethods m1 m2 && b1 = b2
  | _, _ => false

def beqStmts : List Stmt → List Stmt → Bool
  | [], [] => true
  | x :: xs, y :: ys => beqStmt x y && beqStmts xs ys
  | _, _ => false

def beqMethods : List (String × List String × List Stmt) → List (String × List String × List Stmt) → Bool
  | [], [] => true
  | (n1, p1, b1) :: xs, (n2, p2, b2) :: ys =>
      n1 = n2 && p1 = p2 && beqStmts b1 b2 && beqMethods xs ys
  | _, _ => false
end

/-- runtime.py `eq`: `False` when the runtime tags differ, else Python `==`.
Instances have no `__eq__`, so two instances compare by object identity
(equal store ids).  LoxFunction is a dataclass, so it compares field by field
(the captured Ctx's own equality is in the missing ctx.py; the chains are
compared).  LoxClass objects compare by identity; identity is abstracted to
the name (no claim exercises class equality). -/
def eqValue : Value → Value → Bool
  | .nil, .nil => true
  | .bool a, .bool b => a = b
  | .num a, .num b => a = b
  | .str a, .str b => a = b
  | .intV a, .intV b => a = b
  | .fn f, .fn g =>
      f.name = g.name && f.params = g.params && beqStmts f.body g.body && f.ctx = g.ctx
  | .cls a, .cls b => a = b
  | .inst i, .inst j => i = j
  | _, _ => false

/-- runtime.py `eq` / `ne` wrapped as operator results. -/
def applyBin : BinTag → Value → Value → Except PyErr Value
  | .addT, a, b => add a b
  | .subT, a, b => sub a b
  | .mulT, a, b => mul a b
  | .truedivT, a, b => truediv a b
  | .gtT, a, b => gt a b
  | .geT, a, b => ge a b
  | .ltT, a, b => lt a b
  | .leT, a, b => le a b
  | .eqT, a, b => .ok (.bool (eqValue a b))
  | .neT, a, b => .ok (.bool (!eqValue a b))

/-- The unary callables the transformer installs.  `pyNotT` is
`lambda x: not x` (Python truthiness, not runtime.truthy).  `pyNegT` is
`lambda x: -x`: floats negate, a bool negates to a Python int (-True is -1),
ints negate, and every other operand raises TypeError. -/
def applyUn : UnTag → Value → Except PyErr Value
  | .pyNotT, v => .ok (.bool (!pyTruthy v))
  | .pyNegT, .num q => .ok (.num (-q))
  | .pyNegT, .bool b => .ok (.intV (if b then -1 else 0))
  | .pyNegT, .intV z => .ok (.intV (-z))
  | .pyNegT, _ => .error .typeError

/-- Python `callable(...)`: only LoxFunction and LoxClass define `__call__`. -/
def isCallable : Value → Bool
  | .fn _ => true
  | .cls _ => true
  | _ => false

/-- runtime.py `show`.  Floats: `str(value).removesuffix(".0")`, so integral
values print without a decimal point; the decimal rendering of non-integral
floats is abstracted (no claim exercises it).  Instances print as
"NAME instance" via `self.cls.name`. -/
def showValue (st : St) (v : Value) : String :=
  match v with
  | .nil => "nil"
  | .bool true => "true"
  | .bool false => "false"
  | .num q => if q.den = 1 then toString q.num else toString q
  | .str s => s
  | .intV z => toString z
  | .fn f => "<fn " ++ f.name ++ ">"
  | .cls n => n
  | .inst id =>
      match st.insts[id]? with
      | some d =>
          match d.cls with
          | .cls n => n ++ " instance"
          | _ => "instance"
      | none => "instance"

/-- Literal payload to runtime value. -/
def litValue : Lit → Value
  | .nilL => .nil
  | .boolL b => .bool b
  | .numL q => .num q
  | .strL s => .str s

/-- Expression result: a value or a propagating Python exception, with the
world state at that point (printed output survives a failure). -/
inductive ERes where
  | ok (st : St) (v : Value)
  | err (st : St) (e : PyErr)

/-- Argument-list result. -/
inductive ARes where
  | ok (st : St) (vs : List Value)
  | err (st : St) (e : PyErr)

/-- Statement flow: normal completion, the LoxReturn signal, or an exception. -/
inductive SRes where
  | norm (st : St)
  | ret (st : St) (v : Value)
  | err (st : St) (e : PyErr)

/-- State reached by an expression result. -/
def ERes.st : ERes → St
  | .ok st _ => st
  | .err st _ => st

/-- State reached by an argument-list result. -/
def ARes.st : ARes → St
  | .ok st _ => st
  | .err st _ => st

/-- State reached by a statement result. -/
def SRes.st : SRes → St
  | .norm st => st
  | .ret st _ => st
  | .err st _ => st

/-- The exception carried by a statement result, if any. -/
def SRes.errOf : SRes → Option PyErr
  | .err _ e => some e
  | _ => none

/-- Sequence an expression result into an expression continuation
(exceptions propagate, fuel exhaustion propagates). -/
def ebind (x : Option ERes) (k : St → Value → Option ERes) : Option ERes :=
  match x with
  | none => none
  | some (.err st e) => some (.err st e)
  | some (.ok st v) => k st v

/-- Sequence an expression result into a statement continuation. -/
def ebindS (x : Option ERes) (k : St → Value → Option SRes) : Option SRes :=
  match x with
  | none => none
  | some (.err st e) => some (.err st e)
  | some (.ok st v) => k st v

/-- Sequence an expression result into an argument-list continuation. -/
def ebindA (x : Option ERes) (k : St → Value → Option ARes) : Option ARes :=
  match x with
  | none => none
  | some (.err st e) => some (.err st e)
  | some (.ok st v) => k st v

/-- Sequence an argument-list result into an expression continuation. -/
def abind (x : Option ARes) (k : St → List Value → Option ERes) : Option ERes :=
  match x with
  | none => none
  | some (.err st e) => some (.err st e)
  | some (.ok st vs) => k st vs

/-- Continue after a statement only on normal flow (LoxReturn and exceptions
propagate, as raised exceptions do through Python statement sequences). -/
def sbind (x : Option SRes) (k : St → Option SRes) : Option SRes :=
  match x with
  | none => none
  | some (.norm st) => k st
  | some r => some r

/-- Getattr/Setattr's rejection test (ast.py lines 239-243 and 255-259):
`value is None or type(value) in (bool, float, str) or
isinstance(value, (LoxClass, LoxFunction))`.  A Python int (from unary minus
on a bool) slips through the test and fails later at `getattr`/`setattr`
with AttributeError instead. -/
def rejectedByGetattr : Value → Bool
  | .nil => true
  | .bool _ => true
  | .num _ => true
  | .str _ => true
  | .cls _ => true
  | .fn _ => true
  | .intV _ => false
  | .inst _ => false

mutual
/-- One step of `Expr.eval(ctx)` per ast.py, with fuel. -/
def evalExpr : Nat → Expr → Ctx → St → Option ERes
  | 0, _, _, _ => none
  | f + 1, e, c, st =>
    match e with
    | .lit l => some (.ok st (litValue l))
    | .var n =>
        -- Var.eval: ctx[name], KeyError wrapped into NameError
        match ctxGet c st n with
        | some v => some (.ok st v)
        | none => some (.err st .nameError)
    | .binop l r op =>
        -- BinOp.eval: left, then right, then self.op(left_value, right_value)
        ebind (evalExpr f l c st) fun st1 lv =>
        ebind (evalExpr f r c st1) fun st2 rv =>
        match applyBin op lv rv with
        | .ok v => some (.ok st2 v)
        | .error er => some (.err st2 er)
    | .unop op x =>
        ebind (evalExpr f x c st) fun st1 v =>
        match applyUn op v with
        | .ok w => some (.ok st1 w)
        | .error er => some (.err st1 er)
    | .andE l r =>
        -- And.eval: left; if not truthy(left) return it, else evaluate right
        ebind (evalExpr f l c st) fun st1 lv =>
        if truthy lv then evalExpr f r c st1 else some (.ok st1 lv)
    | .orE l r =>
        -- Or.eval: left; if truthy(left) return it, else evaluate right
        ebind (evalExpr f l c st) fun st1 lv =>
        if truthy lv then some (.ok st1 lv) else evalExpr f r c st1
    | .call callee args =>
        -- Call.eval: callee, then each argument, then callable check
        ebind (evalExpr f callee c st) fun st1 fv =>
        abind (evalArgs f args c st1) fun st2 vs =>
        if isCallable fv then callValue f fv vs st2
        else some (.err st2 .typeError)
    | .thisE =>
        -- This.eval: ctx["this"], KeyError wrapped into NameError
        match ctxGet c st "this" with
        | some v => some (.ok st v)
        | none => some (.err st .nameError)
    | .superE _ =>
        -- Super.eval: ctx["super"], ctx["this"] (raw KeyError when absent),
        -- then superclass.get_method(...): runtime.LoxClass defines no
        -- get_method — no runtime value does — so Python raises
        -- AttributeError before any method resolution or binding happens.
        match ctxGet c st "super" with
        | none => some (.err st .keyError)
        | some _ =>
            match ctxGet c st "this" with
            | none => some (.err st .keyError)
            | some _ => some (.err st .attributeError)
    | .assign n x =>
        -- Assign.eval: value first, then ctx.assign(name, result)
        ebind (evalExpr f x c st) fun st1 v =>
        match ctxAssign c st1 n v with
        | some st2 => some (.ok st2 v)
        | none => some (.err st1 .nameError)
    | .getattrE o a =>
        -- Getattr.eval: non-instances are rejected with LoxError; on an
        -- instance, getattr reads the object dict ("cls" slot or a field);
        -- a missing attribute raises AttributeError (LoxInstance has no
        -- __getattr__ fallback, and LoxClass has no method table to fall
        -- back to).
        ebind (evalExpr f o c st) fun st1 v =>
        match v with
        | .inst id =>
            match st1.insts[id]? with
            | none => some (.err st1 .attributeError)
            | some d =>
                if a = "cls" then some (.ok st1 d.cls)
                else
                  match alGet d.fields a with
                  | some w => some (.ok st1 w)
                  | none => some (.err st1 .attributeError)
        | .intV _ => some (.err st1 .attributeError)
        | _ => some (.err st1 .loxError)
    | .setattrE o a x =>
        -- Setattr.eval: object first, rejection test, THEN the value, then
        -- setattr (writes the "cls" slot or a field on an instance; raises
        -- AttributeError on a Python int).
        ebind (evalExpr f o c st) fun st1 v =>
        match v with
        | .inst id =>
            ebind (evalExpr f x c st1) fun st2 r =>
            match st2.insts[id]? with
            | none => some (.err st2 .attributeError)
            | some d =>
                let d2 := if a = "cls" then { d with cls := r }
                          else { d with fields := alSet d.fields a r }
                some (.ok { st2 with insts := st2.insts.set id d2 } r)
        | .intV _ =>
            ebind (evalExpr f x c st1) fun st2 _ =>
            some (.err st2 .attributeError)
        | _ => some (.err st1 .loxError)

/-- Left-to-right evaluation of `[p.eval(ctx) for p in self.params]`. -/
def evalArgs : Nat → List Expr → Ctx → St → Option ARes
  | _, [], _, st => some (.ok st [])
  | 0, _ :: _, _, _ => none
  | f + 1, x :: xs, c, st =>
      ebindA (evalExpr f x c st) fun st1 v =>
      match evalArgs f xs c st1 with
      | none => none
      | some (.err st2 e) => some (.err st2 e)
      | some (.ok st2 vs) => some (.ok st2 (v :: vs))

/-- Invoking a callable value.
LoxClass.__call__ ignores every argument and returns `LoxInstance(self)`
whose object dict holds only the `cls` slot — no arity check, no `init` call.
LoxFunction.call builds `dict(zip(params, args, strict=True))` (ValueError on
an arity mismatch), pushes it as a frame on the CAPTURED context, runs the
body, catches LoxReturn, and returns None on normal fall-through; the
`finally: ctx.pop()` restores the caller's chain on every exit path, which
the chain-as-value embedding realises by never returning a chain. -/
def callValue : Nat → Value → List Value → St → Option ERes
  | 0, _, _, _ => none
  | f + 1, fv, args, st =>
    match fv with
    | .cls n =>
        let p := st.allocInst ⟨.cls n, []⟩
        some (.ok p.1 (.inst p.2))
    | .fn fd =>
        if args.length = fd.params.length then
          let p := st.allocFrame (List.zip fd.params args)
          match evalSeq f fd.body (p.2 :: fd.ctx) p.1 with
          | none => none
          | some (.norm st2) => some (.ok st2 .nil)
          | some (.ret st2 v) => some (.ok st2 v)
          | some (.err st2 e) => some (.err st2 e)
        else some (.err st .valueError)
    | _ => some (.err st .typeError)

/-- One step of `Stmt.eval(ctx)` per ast.py, with fuel. -/
def evalStmt : Nat → Stmt → Ctx → St → Option SRes
  | 0, _, _, _ => none
  | f + 1, s, c, st =>
    match s with
    | .exprStmt e =>
        ebindS (evalExpr f e c st) fun st1 _ => some (.norm st1)
    | .printS e =>
        -- Print.eval: print(show(value))
        ebindS (evalExpr f e c st) fun st1 v =>
        some (.norm { st1 with output := st1.output ++ [showValue st1 v] })
    | .returnS ov =>
        -- Return.eval: result = None if no value, else value.eval; raise LoxReturn
        match ov with
        | none => some (.ret st .nil)
        | some x =>
            ebindS (evalExpr f x c st) fun st1 v => some (.ret st1 v)
    | .varDef n x =>
        -- VarDef.eval: ctx.var_def(name, value.eval(ctx))
        ebindS (evalExpr f x c st) fun st1 v =>
        some (.norm (ctxVarDef c st1 n v))
    | .ifS cond t eb =>
        ebindS (evalExpr f cond c st) fun st1 v =>
        if truthy v then evalStmt f t c st1
        else
          match eb with
          | some el => evalStmt f el c st1
          | none => some (.norm st1)
    | .whileS cond body =>
        ebindS (evalExpr f cond c st) fun st1 v =>
        if truthy v then
          sbind (evalStmt f body c st1) fun st2 =>
          evalStmt f (.whileS cond body) c st2
        else some (.norm st1)
    | .block bs =>
        -- Block.eval: ctx = ctx.push({}); run the statements; the
        -- try/finally pop restores the caller's chain on every exit path
        -- (normal, LoxReturn, exception): the pushed frame id never appears
        -- in any chain the caller continues with.
        let p := st.allocFrame []
        evalSeq f bs (p.2 :: c) p.1
    | .functionS n ps body =>
        -- Function.eval: build the LoxFunction closing over the current
        -- chain, declare it under its own name
        some (.norm (ctxVarDef c st n (.fn ⟨n, ps, body, c⟩)))
    | .classS _ _ base =>
        -- Class.eval: resolve the optional base (KeyError → NameError;
        -- a non-class value → LoxError "Superclasse inválida"); with a base,
        -- method_ctx = ctx.push({"super": superclass}); build the method
        -- dict (pure LoxFunction values, discarded); then
        -- `LoxClass(self.name, methods, superclass)` — but runtime.py's
        -- LoxClass.__init__ accepts only `name`, so the three-argument
        -- construction raises TypeError and `ctx.var_def` is never reached.
        match base with
        | none => some (.err st .typeError)
        | some b =>
            match ctxGet c st b with
            | none => some (.err st .nameError)
            | some v =>
                match v with
                | .cls _ =>
                    let p := st.allocFrame [("super", v)]
                    some (.err p.1 .typeError)
                | _ => some (.err st .loxError)

/-- Run a statement list in order (Program.eval / Block.eval bodies), first
non-normal flow stops the sequence. -/
def evalSeq : Nat → List Stmt → Ctx → St → Option SRes
  | _, [], _, st => some (.norm st)
  | 0, _ :: _, _, _ => none
  | f + 1, s :: rest, c, st =>
      sbind (evalStmt f s c st) fun st1 =>
      evalSeq f rest c st1
end

namespace LoxTransformer

/-- transformer.py `not_`: builds `UnaryOp(op=lambda x: not x, operand=value)`
— Python truthiness negation, not runtime.not_. -/
def not_ (value : Expr) : Expr := .unop .pyNotT value

/-- transformer.py `neg`: `UnaryOp(op=lambda x: -x, operand=value)`. -/
def neg (value : Expr) : Expr := .unop .pyNegT value

/-- transformer.py `div = op_handler(op.truediv)`. -/
def div (left right : Expr) : Expr := .binop left right .truedivT

/-- transformer.py `empty_init`: a missing for-initializer becomes `Literal(None)`
(an expression used in statement position). -/
def empty_init : Stmt := .exprStmt (.lit .nilL)

/-- transformer.py `maybe_cond`: a missing loop condition defaults to the
true literal. -/
def maybe_cond : Option Expr → Expr
  | none => .lit (.boolL true)
  | some cond => cond

/-- transformer.py `maybe_incr`: a missing loop increment defaults to the
nil literal. -/
def maybe_incr : Option Expr → Expr
  | none => .lit .nilL
  | some incr => incr

/-- transformer.py `for_cmd`: desugars the counted loop into
`Block([init, While(cond, Block([body, incr]))])`.  The increment expression
is placed directly in the inner block's statement list (expressions evaluate
and discard in statement position), embedded as `exprStmt`. -/
def for_cmd (init : Stmt) (cond : Expr) (incr : Expr) (body : Stmt) : Stmt :=
  .block [init, .whileS cond (.block [body, .exprStmt incr])]

end LoxTransformer

/-! ### Semantic validation

The validate_self hooks live in ast.py; the pass driver and the Cursor live
in node.py, which is not under src/.  The driver is modelled from the spec
(section 4.4): a single whole-tree pre-order walk that calls each node's own
check with a cursor positioned at that node, stopping at the first failure.
Cursor ancestor queries are realised by threading the ancestor list
(innermost first) through the walk. -/

/-- What validation needs to know about an ancestor node. -/
inductive Anc where
  | programA
  | classA (base : Option String)
  | functionA (name : String)
  | blockA
  | otherA
deriving DecidableEq

/-- A SemanticError: message and offending token (errors.py is not under
src/; spec 4.1: message plus the offending token/name). -/
structure SemErr where
  msg : String
  token : String
deriving DecidableEq

/-- Cursor.is_scoped_to(Class). -/
def scopedToClass (anc : List Anc) : Bool :=
  anc.any fun a => match a with | .classA _ => true | _ => false

/-- Cursor.is_scoped_to(Function). -/
def scopedToFunction (anc : List Anc) : Bool :=
  anc.any fun a => match a with | .functionA _ => true | _ => false

/-- Cursor.function_scope(): the nearest enclosing Function's name together
with that Function node's own parent (needed by Return's init rule). -/
def functionScope : List Anc → Option (String × Option Anc)
  | [] => none
  | .functionA n :: rest => some (n, rest.head?)
  | _ :: rest => functionScope rest

/-- Cursor.class_scope(): the nearest enclosing Class's base field. -/
def classScopeBase : List Anc → Option (Option String)
  | [] => none
  | .classA b :: _ => some b
  | _ :: rest => classScopeBase rest

mutual
/-- VarDef.validate_self's descendant scan: does the initializer expression
reference `Var(name)` anywhere within itself (the expression itself counts)? -/
def exprContainsVar : Expr → String → Bool
  | .lit _, _ => false
  | .var m, n => m = n
  | .binop l r _, n => exprContainsVar l n || exprContainsVar r n
  | .unop _ x, n => exprContainsVar x n
  | .andE l r, n => exprContainsVar l n || exprContainsVar r n
  | .orE l r, n => exprContainsVar l n || exprContainsVar r n
  | .call callee args, n =>
      exprContainsVar callee n || exprsContainVar args n
  | .thisE, _ => false
  | .superE _, _ => false
  | .assign _ v, n => exprContainsVar v n
  | .getattrE o _, n => exprContainsVar o n
  | .setattrE o _ v, n => exprContainsVar o n || exprContainsVar v n

/-- Descendant scan over an expression list. -/
def exprsContainVar : List Expr → String → Bool
  | [], _ => false
  | x :: xs, n => exprContainsVar x n || exprsContainVar xs n
end

/-- First duplicated entry of a string list, scanning left to right
(Block.validate_self's seen-set loop; also Function's duplicate parameters). -/
def firstDup (seen : List String) : List String → Option String
  | [] => none
  | n :: rest => if n ∈ seen then some n else firstDup (n :: seen) rest

/-- First keyword in a list (Function.validate_self's parameter loop). -/
def firstKeyword : List String → Option String
  | [] => none
  | n :: rest => if n ∈ KEYWORDS then some n else firstKeyword rest

/-- The VarDef names directly inside a statement list (Block.validate_self's
`[s.name for s in self.stmts if isinstance(s, VarDef)]`). -/
def varDefNames : List Stmt → List String
  | [] => []
  | .varDef n _ :: rest => n :: varDefNames rest
  | _ :: rest => varDefNames rest

/-- First body VarDef name that collides with a parameter
(Function.validate_self's final loop). -/
def firstParamCollision (params : List String) : List String → Option String
  | [] => none
  | n :: rest => if n ∈ params then some n else firstParamCollision params rest

/-- The node-local `validate_self` of an expression node, per ast.py.
Note: `Assign` defines NO validate_self — its target name is not checked. -/
def validateExprSelf (anc : List Anc) : Expr → Option SemErr
  | .var n => if n ∈ KEYWORDS then some ⟨"nome inválido", n⟩ else none
  | .thisE =>
      if scopedToClass anc then none
      else some ⟨"uso inválido de 'this'", "this"⟩
  | .superE _ =>
      if scopedToClass anc then
        match classScopeBase anc with
        | some none => some ⟨"classe sem superclasse", "super"⟩
        | _ => none
      else some ⟨"uso inválido de 'super'", "super"⟩
  | _ => none

/-- The node-local `validate_self` of a statement node, per ast.py. -/
def validateStmtSelf (anc : List Anc) : Stmt → Option SemErr
  | .returnS v =>
      if scopedToFunction anc then
        match functionScope anc with
        | some (fname, parent) =>
            if v.isSome && fname = "init" &&
               (match parent with | some (.classA _) => true | _ => false) then
              some ⟨"não pode retornar valor de inicializador", "return"⟩
            else none
        | none => none
      else some ⟨"return fora de função", "return"⟩
  | .varDef n val =>
      if n ∈ KEYWORDS then some ⟨"nome inválido", n⟩
      else if anc.head? = some .programA then none
      else if exprContainsVar val n then
        some ⟨"variável usada em seu próprio inicializador", n⟩
      else none
  | .block bs =>
      match firstDup [] (varDefNames bs) with
      | some n => some ⟨"variável duplicada", n⟩
      | none => none
  | .functionS _ ps body =>
      match firstKeyword ps with
      | some p => some ⟨"nome inválido", p⟩
      | none =>
          match firstDup [] ps with
          | some p => some ⟨"parâmetro duplicado", p⟩
          | none =>
              match firstParamCollision ps (varDefNames body) with
              | some n => some ⟨"nome inválido", n⟩
              | none => none
  | .classS n _ base =>
      if base = some n then some ⟨"classe nao pode herdar de si mesma", n⟩
      else none
  | _ => none

mutual
/-- Pre-order walk of an expression: own check, then children with this node
pushed as an ancestor. -/
def validateExpr (anc : List Anc) (e : Expr) : Option SemErr :=
  match validateExprSelf anc e with
  | some er => some er
  | none =>
      match e with
      | .lit _ => none
      | .var _ => none
      | .binop l r _ =>
          match validateExpr (.otherA :: anc) l with
          | some er => some er
          | none => validateExpr (.otherA :: anc) r
      | .unop _ x => validateExpr (.otherA :: anc) x
      | .andE l r =>
          match validateExpr (.otherA :: anc) l with
          | some er => some er
          | none => validateExpr (.otherA :: anc) r
      | .orE l r =>
          match validateExpr (.otherA :: anc) l with
          | some er => some er
          | none => validateExpr (.otherA :: anc) r
      | .call callee args =>
          match validateExpr (.otherA :: anc) callee with
          | some er => some er
          | none => validateExprs (.otherA :: anc) args
      | .thisE => none
      | .superE _ => none
      | .assign _ v => validateExpr (.otherA :: anc) v
      | .getattrE o _ => validateExpr (.otherA :: anc) o
      | .setattrE o _ v =>
          match validateExpr (.otherA :: anc) o with
          | some er => some er
          | none => validateExpr (.otherA :: anc) v

/-- Sibling sub-expressions in order. -/
def validateExprs (anc : List Anc) : List Expr → Option SemErr
  | [] => none
  | x :: xs =>
      match validateExpr anc x with
      | some er => some er
      | none => validateExprs anc xs

/-- Pre-order walk of a statement. -/
def validateStmt (anc : List Anc) (s : Stmt) : Option SemErr :=
  match validateStmtSelf anc s with
  | some er => some er
  | none =>
      match s with
      | .exprStmt e => validateExpr (.otherA :: anc) e
      | .printS e => validateExpr (.otherA :: anc) e
      | .returnS none => none
      | .returnS (some e) => validateExpr (.otherA :: anc) e
      | .varDef _ v => validateExpr (.otherA :: anc) v
      | .ifS cond t eb =>
          match validateExpr (.otherA :: anc) cond with
          | some er => some er
          | none =>
              match validateStmt (.otherA :: anc) t with
              | some er => some er
              | none =>
                  match eb with
                  | some el => validateStmt (.otherA :: anc) el
                  | none => none
      | .whileS cond body =>
          match validateExpr (.otherA :: anc) cond with
          | some er => some er
          | none => validateStmt (.otherA :: anc) body
      | .block bs => validateStmts (.blockA :: anc) bs
      | .functionS n _ body =>
          -- the Function node's child is its body Block: the Block's own
          -- duplicate-VarDef check runs, then the body statements with
          -- ancestors [Block, Function, ...]
          match firstDup [] (varDefNames body) with
          | some m => some ⟨"variável duplicada", m⟩
          | none => validateStmts (.blockA :: .functionA n :: anc) body
      | .classS _ ms base => validateMethods (.classA base :: anc) ms

/-- Sibling statements in order. -/
def validateStmts (anc : List Anc) : List Stmt → Option SemErr
  | [] => none
  | s :: rest =>
      match validateStmt anc s with
      | some er => some er
      | none => validateStmts anc rest

/-- Method Function nodes of a Class, each validated as a Function child of
the Class node: the Function node's own check, then its body Block's check,
then the body statements with ancestors [Block, Function, Class, ...]. -/
def validateMethods (anc : List Anc) : List (String × List String × List Stmt) → Option SemErr
  | [] => none
  | (n, ps, body) :: rest =>
      match validateStmtSelf anc (.functionS n ps body) with
      | some er => some er
      | none =>
          match firstDup [] (varDefNames body) with
          | some m => some ⟨"variável duplicada", m⟩
          | none =>
              match validateStmts (.blockA :: .functionA n :: anc) body with
              | some er => some er
              | none => validateMethods anc rest
end

/-- Validate a whole Program: its top-level statements with the Program node
as their ancestor.  A `some` result prevents evaluation entirely. -/
def validateProgram (stmts : List Stmt) : Option SemErr :=
  validateStmts [.programA] stmts

/-- The spec's counted-loop example, as the transformer builds it:
`for (var i = 0; i < 3; i = i + 1) print i;`. -/
def forExample : Stmt :=
  LoxTransformer.for_cmd (.varDef "i" (.lit (.numL 0)))
    (.binop (.var "i") (.lit (.numL 3)) .ltT)
    (.assign "i" (.binop (.var "i") (.lit (.numL 1)) .addT))
    (.printS (.var "i"))

/-! ### Frame-domain discipline

Evaluation only ever introduces a new binding into (a) the innermost frame of
the chain it was handed (statement-level `var_def`) or (b) frames allocated
during that very evaluation (block frames, call-argument frames, the `super`
frame).  These lemmas capture that and yield the scope-safety claim: the
frame a block or call pushes is gone from the caller's chain on every exit
path, so a name unbound before stays invisible through that chain after. -/

/-- `st2` extends `st`'s frame store and adds no binding to any old frame. -/
def DomLe (st st2 : St) : Prop :=
  st.frames.length ≤ st2.frames.length ∧
  ∀ fid n, fid < st.frames.length → st.frameGet fid n = none → st2.frameGet fid n = none

/-- Like `DomLe` but the frame `h` (the innermost frame of the running chain)
may gain bindings. -/
def DomLeH (h : Option Nat) (st st2 : St) : Prop :=
  st.frames.length ≤ st2.frames.length ∧
  ∀ fid n, fid < st.frames.length → some fid ≠ h →
    st.frameGet fid n = none → st2.frameGet fid n = none

theorem domLe_rfl (st : St) : DomLe st st :=
  ⟨le_refl _, fun _ _ _ h => h⟩

theorem domLe_trans {s1 s2 s3 : St} (a : DomLe s1 s2) (b : DomLe s2 s3) : DomLe s1 s3 :=
  ⟨a.1.trans b.1, fun fid n hf hn => b.2 fid n (lt_of_lt_of_le hf a.1) (a.2 fid n hf hn)⟩

theorem domLe_toH {s1 s2 : St} (h : Option Nat) (a : DomLe s1 s2) : DomLeH h s1 s2 :=
  ⟨a.1, fun fid n hf _ hn => a.2 fid n hf hn⟩

theorem domLeH_trans {h : Option Nat} {s1 s2 s3 : St}
    (a : DomLeH h s1 s2) (b : DomLeH h s2 s3) : DomLeH h s1 s3 :=
  ⟨a.1.trans b.1, fun fid n hf hne hn =>
    b.2 fid n (lt_of_lt_of_le hf a.1) hne (a.2 fid n hf hne hn)⟩

theorem domLe_of_frames_eq {s1 s2 : St} (h : s2.frames = s1.frames) : DomLe s1 s2 := by
  constructor
  · rw [h]
  · intro fid n _ hn
    unfold St.frameGet at *
    rw [h]
    exact hn

theorem domLe_allocFrame (st : St) (b : List (String × Value)) :
    DomLe st (st.allocFrame b).1 := by
  constructor
  · simp [St.allocFrame]
  · intro fid n hf hn
    unfold St.frameGet at *
    simp only [St.allocFrame]
    rw [List.getElem?_append_left hf]
    exact hn

theorem alAssign_get_none {b b2 : List (String × Value)} {n m : String} {v : Value}
    (h : alAssign b n v = some b2) (hn : alGet b m = none) : alGet b2 m = none := by
  induction b generalizing b2 with
  | nil => simp [alAssign] at h
  | cons hd tl ih =>
    obtain ⟨k, w⟩ := hd
    simp only [alGet] at hn
    by_cases hkm : k = m
    · rw [if_pos hkm] at hn
      exact Option.noConfusion hn
    · rw [if_neg hkm] at hn
      by_cases hk : k = n
      · simp only [alAssign] at h
        rw [if_pos hk] at h
        injection h with h
        subst h
        simp only [alGet]
        rw [if_neg (fun hnm => hkm (hk.trans hnm))]
        exact hn
      · simp only [alAssign] at h
        rw [if_neg hk, Option.map_eq_some'] at h
        obtain ⟨b3, hb3, hb2⟩ := h
        subst hb2
        simp only [alGet]
        rw [if_neg hkm]
        exact ih hb3 hn

theorem getElem?_isSome_lt {α : Type} {l : List α} {i : Nat} {a : α}
    (h : l[i]? = some a) : i < l.length := by
  by_contra hge
  rw [List.getElem?_eq_none (Nat.le_of_not_lt hge)] at h
  exact Option.noConfusion h

theorem domLe_ctxAssign {c : Ctx} {st st2 : St} {n : String} {v : Value}
    (h : ctxAssign c st n v = some st2) : DomLe st st2 := by
  induction c with
  | nil => simp [ctxAssign] at h
  | cons fid rest ih =>
    simp only [ctxAssign] at h
    split at h
    · exact ih h
    · rename_i fr hfr
      split at h
      · rename_i b hass
        injection h with h
        subst h
        refine ⟨?_, ?_⟩
        · simp [St.setFrame]
        · intro fid2 m hf2 hn
          simp only [St.frameGet, St.setFrame] at hn ⊢
          by_cases heq : fid = fid2
          · subst heq
            rw [List.getElem?_set_self (getElem?_isSome_lt hfr)]
            rw [hfr] at hn
            simp only [Option.some_bind] at hn ⊢
            exact alAssign_get_none hass hn
          · rw [List.getElem?_set_ne heq]
            exact hn
      · exact ih h

theorem domLeH_ctxVarDef (c : Ctx) (st : St) (n : String) (v : Value) :
    DomLeH c.head? st (ctxVarDef c st n v) := by
  cases c with
  | nil => exact domLe_toH _ (domLe_rfl st)
  | cons fid rest =>
    simp only [ctxVarDef]
    cases hfr : st.frames[fid]? with
    | none => exact domLe_toH _ (domLe_rfl st)
    | some fr =>
      refine ⟨?_, ?_⟩
      · simp [St.setFrame]
      · intro fid2 m hf2 hne hn
        have hnefid : fid ≠ fid2 := by
          intro he
          exact hne (by simp [he])
        simp only [St.frameGet, St.setFrame] at hn ⊢
        rw [List.getElem?_set_ne hnefid]
        exact hn

/-- After pushing a fresh frame and running with it as the chain head, every
old frame's domain is preserved outright: the pushed frame is the only one
exempted, and it is new. -/
theorem domLe_push_run {st st2 : St} {b : List (String × Value)}
    (h : DomLeH (some (st.allocFrame b).2) (st.allocFrame b).1 st2) : DomLe st st2 := by
  obtain ⟨hlen, hdom⟩ := h
  have halloc := domLe_allocFrame st b
  constructor
  · exact le_trans (le_trans halloc.1 (le_refl _)) hlen
  · intro fid n hf hn
    have hf1 : fid < (st.allocFrame b).1.frames.length := lt_of_lt_of_le hf halloc.1
    have hne : some fid ≠ some (st.allocFrame b).2 := by
      simp only [St.allocFrame]
      intro he
      simp at he
      omega
    exact hdom fid n hf1 hne (halloc.2 fid n hf hn)

theorem ctxGet_eq_none {c : Ctx} {st : St} {n : String}
    (h : ∀ fid, fid ∈ c → st.frameGet fid n = none) : ctxGet c st n = none := by
  induction c with
  | nil => rfl
  | cons fid rest ih =>
    unfold ctxGet
    rw [h fid (by simp)]
    exact ih fun fid2 hm => h fid2 (by simp [hm])

/-! Composition lemmas for the sequencing combinators. -/

theorem ebind_domLe {x : Option ERes} {k : St → Value → Option ERes} {r : ERes} {st : St}
    (hx : ∀ r0, x = some r0 → DomLe st r0.st)
    (hk : ∀ st1 v r1, x = some (.ok st1 v) → k st1 v = some r1 → DomLe st1 r1.st)
    (h : ebind x k = some r) : DomLe st r.st := by
  cases x with
  | none => simp [ebind] at h
  | some r0 =>
    cases r0 with
    | err st1 e =>
      simp [ebind] at h
      subst h
      exact hx _ rfl
    | ok st1 v =>
      simp [ebind] at h
      exact domLe_trans (hx _ rfl) (hk st1 v r rfl h)

theorem ebindS_domLeH {x : Option ERes} {k : St → Value → Option SRes} {r : SRes}
    {st : St} {h0 : Option Nat}
    (hx : ∀ r0, x = some r0 → DomLe st r0.st)
    (hk : ∀ st1 v r1, x = some (.ok st1 v) → k st1 v = some r1 → DomLeH h0 st1 r1.st)
    (h : ebindS x k = some r) : DomLeH h0 st r.st := by
  cases x with
  | none => simp [ebindS] at h
  | some r0 =>
    cases r0 with
    | err st1 e =>
      simp [ebindS] at h
      subst h
      exact domLe_toH _ (hx _ rfl)
    | ok st1 v =>
      simp [ebindS] at h
      exact domLeH_trans (domLe_toH _ (hx _ rfl)) (hk st1 v r rfl h)

theorem ebindA_domLe {x : Option ERes} {k : St → Value → Option ARes} {r : ARes} {st : St}
    (hx : ∀ r0, x = some r0 → DomLe st r0.st)
    (hk : ∀ st1 v r1, x = some (.ok st1 v) → k st1 v = some r1 → DomLe st1 r1.st)
    (h : ebindA x k = some r) : DomLe st r.st := by
  cases x with
  | none => simp [ebindA] at h
  | some r0 =>
    cases r0 with
    | err st1 e =>
      simp [ebindA] at h
      subst h
      exact hx _ rfl
    | ok st1 v =>
      simp [ebindA] at h
      exact domLe_trans (hx _ rfl) (hk st1 v r rfl h)

theorem abind_domLe {x : Option ARes} {k : St → List Value → Option ERes} {r : ERes} {st : St}
    (hx : ∀ r0, x = some r0 → DomLe st r0.st)
    (hk : ∀ st1 vs r1, x = some (.ok st1 vs) → k st1 vs = some r1 → DomLe st1 r1.st)
    (h : abind x k = some r) : DomLe st r.st := by
  cases x with
  | none => simp [abind] at h
  | some r0 =>
    cases r0 with
    | err st1 e =>
      simp [abind] at h
      subst h
      exact hx _ rfl
    | ok st1 vs =>
      simp [abind] at h
      exact domLe_trans (hx _ rfl) (hk st1 vs r rfl h)

theorem sbind_domLeH {x : Option SRes} {k : St → Option SRes} {r : SRes}
    {st : St} {h0 : Option Nat}
    (hx : ∀ r0, x = some r0 → DomLeH h0 st r0.st)
    (hk : ∀ st1 r1, x = some (.norm st1) → k st1 = some r1 → DomLeH h0 st1 r1.st)
    (h : sbind x k = some r) : DomLeH h0 st r.st := by
  cases x with
  | none => simp [sbind] at h
  | some r0 =>
    cases r0 with
    | norm st1 =>
      simp [sbind] at h
      exact domLeH_trans (hx _ rfl) (hk st1 r rfl h)
    | ret st1 v =>
      simp [sbind] at h
      subst h
      exact hx _ rfl
    | err st1 e =>
      simp [sbind] at h
      subst h
      exact hx _ rfl

/-- The frame-domain discipline of the whole evaluator: expressions,
argument lists and calls never add a binding to any pre-existing frame
(`DomLe`), and a statement may add bindings only to the innermost frame of
the chain it runs in (`DomLeH`).  A block, in particular, adds bindings only
to its freshly pushed frame, so it satisfies the unrestricted `DomLe`. -/
theorem evalDom : ∀ f : Nat,
    (∀ e c st r, evalExpr f e c st = some r → DomLe st r.st) ∧
    (∀ es c st r, evalArgs f es c st = some r → DomLe st r.st) ∧
    (∀ v args st r, callValue f v args st = some r → DomLe st r.st) ∧
    (∀ s c st r, evalStmt f s c st = some r → DomLeH c.head? st r.st) ∧
    (∀ bs c st r, evalStmt f (.block bs) c st = some r → DomLe st r.st) ∧
    (∀ ss c st r, evalSeq f ss c st = some r → DomLeH c.head? st r.st) := by
  intro f
  induction f with
  | zero =>
    refine ⟨?_, ?_, ?_, ?_, ?_, ?_⟩
    · intro e c st r h
      simp [evalExpr] at h
    · intro es c st r h
      cases es with
      | nil =>
        simp only [evalArgs] at h
        injection h with h
        subst h
        exact domLe_rfl st
      | cons x xs => simp [evalArgs] at h
    · intro v args st r h
      simp [callValue] at h
    · intro s c st r h
      simp [evalStmt] at h
    · intro bs c st r h
      simp [evalStmt] at h
    · intro ss c st r h
      cases ss with
      | nil =>
        simp only [evalSeq] at h
        injection h with h
        subst h
        exact domLe_toH _ (domLe_rfl st)
      | cons s rest => simp [evalSeq] at h
  | succ f ih =>
    obtain ⟨ihE, ihA, ihC, ihS, ihB, ihQ⟩ := ih
    have hexpr : ∀ e c st r, evalExpr (f + 1) e c st = some r → DomLe st r.st := by
      intro e c st r h
      cases e with
      | lit l =>
        simp only [evalExpr] at h
        injection h with h
        subst h
        exact domLe_rfl st
      | var n =>
        simp only [evalExpr] at h
        split at h <;> (injection h with h; subst h; exact domLe_rfl st)
      | binop l rr op =>
        simp only [evalExpr] at h
        refine ebind_domLe (fun r0 h0 => ihE l c st r0 h0) (fun st1 v r1 _ h1 => ?_) h
        refine ebind_domLe (fun r0 h0 => ihE rr c st1 r0 h0) (fun st2 v2 r2 _ h2 => ?_) h1
        split at h2 <;> (injection h2 with h2; subst h2; exact domLe_rfl _)
      | unop op x =>
        simp only [evalExpr] at h
        refine ebind_domLe (fun r0 h0 => ihE x c st r0 h0) (fun st1 v r1 _ h1 => ?_) h
        split at h1 <;> (injection h1 with h1; subst h1; exact domLe_rfl _)
      | andE l rr =>
        simp only [evalExpr] at h
        refine ebind_domLe (fun r0 h0 => ihE l c st r0 h0) (fun st1 v r1 _ h1 => ?_) h
        split at h1
        · exact ihE rr c st1 r1 h1
        · injection h1 with h1
          subst h1
          exact domLe_rfl _
      | orE l rr =>
        simp only [evalExpr] at h
        refine ebind_domLe (fun r0 h0 => ihE l c st r0 h0) (fun st1 v r1 _ h1 => ?_) h
        split at h1
        · injection h1 with h1
          subst h1
          exact domLe_rfl _
        · exact ihE rr c st1 r1 h1
      | call callee args =>
        simp only [evalExpr] at h
        refine ebind_domLe (fun r0 h0 => ihE callee c st r0 h0) (fun st1 fv r1 _ h1 => ?_) h
        refine abind_domLe (fun r0 h0 => ihA args c st1 r0 h0) (fun st2 vs r2 _ h2 => ?_) h1
        split at h2
        · exact ihC fv vs st2 r2 h2
        · injection h2 with h2
          subst h2
          exact domLe_rfl _
      | thisE =>
        simp only [evalExpr] at h
        split at h <;> (injection h with h; subst h; exact domLe_rfl st)
      | superE n =>
        simp only [evalExpr] at h
        split at h
        · injection h with h
          subst h
          exact domLe_rfl st
        · split at h <;> (injection h with h; subst h; exact domLe_rfl st)
      | assign n x =>
        simp only [evalExpr] at h
        refine ebind_domLe (fun r0 h0 => ihE x c st r0 h0) (fun st1 v r1 _ h1 => ?_) h
        split at h1
        · rename_i st2 hassign
          injection h1 with h1
          subst h1
          exact domLe_ctxAssign hassign
        · injection h1 with h1
          subst h1
          exact domLe_rfl _
      | getattrE o a =>
        simp only [evalExpr] at h
        refine ebind_domLe (fun r0 h0 => ihE o c st r0 h0) (fun st1 v r1 _ h1 => ?_) h
        split at h1
        · split at h1
          · injection h1 with h1
            subst h1
            exact domLe_rfl _
          · split at h1
            · injection h1 with h1
              subst h1
              exact domLe_rfl _
            · split at h1 <;> (injection h1 with h1; subst h1; exact domLe_rfl _)
        · injection h1 with h1
          subst h1
          exact domLe_rfl _
        · injection h1 with h1
          subst h1
          exact domLe_rfl _
      | setattrE o a x =>
        simp only [evalExpr] at h
        refine ebind_domLe (fun r0 h0 => ihE o c st r0 h0) (fun st1 v r1 _ h1 => ?_) h
        split at h1
        · refine ebind_domLe (fun r0 h0 => ihE x c st1 r0 h0) (fun st2 rv r2 _ h2 => ?_) h1
          split at h2
          · injection h2 with h2
            subst h2
            exact domLe_rfl _
          · injection h2 with h2
            subst h2
            exact domLe_of_frames_eq rfl
        · refine ebind_domLe (fun r0 h0 => ihE x c st1 r0 h0) (fun st2 rv r2 _ h2 => ?_) h1
          injection h2 with h2
          subst h2
          exact domLe_rfl _
        · injection h1 with h1
          subst h1
          exact domLe_rfl _
    have hargs : ∀ es c st r, evalArgs (f + 1) es c st = some r → DomLe st r.st := by
      intro es c st r h
      cases es with
      | nil =>
        simp only [evalArgs] at h
        injection h with h
        subst h
        exact domLe_rfl st
      | cons x xs =>
        simp only [evalArgs] at h
        refine ebindA_domLe (fun r0 h0 => ihE x c st r0 h0) (fun st1 v r1 _ h1 => ?_) h
        split at h1
        · exact Option.noConfusion h1
        · rename_i st2 e2 hrec
          injection h1 with h1
          subst h1
          exact ihA xs c st1 _ hrec
        · rename_i st2 vs hrec
          injection h1 with h1
          subst h1
          exact ihA xs c st1 (.ok st2 vs) hrec
    have hcall : ∀ v args st r, callValue (f + 1) v args st = some r → DomLe st r.st := by
      intro v args st r h
      cases v with
      | cls n =>
        simp only [callValue] at h
        injection h with h
        subst h
        exact domLe_of_frames_eq rfl
      | fn fd =>
        simp only [callValue] at h
        split at h
        · split at h
          · exact Option.noConfusion h
          · rename_i st2 hseq
            injection h with h
            subst h
            have hq := ihQ fd.body _ _ _ hseq
            rw [List.head?_cons] at hq
            exact domLe_push_run hq
          · rename_i st2 v2 hseq
            injection h with h
            subst h
            have hq := ihQ fd.body _ _ _ hseq
            rw [List.head?_cons] at hq
            exact domLe_push_run hq
          · rename_i st2 e2 hseq
            injection h with h
            subst h
            have hq := ihQ fd.body _ _ _ hseq
            rw [List.head?_cons] at hq
            exact domLe_push_run hq
        · injection h with h
          subst h
          exact domLe_rfl _
      | nil =>
        simp only [callValue] at h
        injection h with h
        subst h
        exact domLe_rfl _
      | bool b =>
        simp only [callValue] at h
        injection h with h
        subst h
        exact domLe_rfl _
      | num q =>
        simp only [callValue] at h
        injection h with h
        subst h
        exact domLe_rfl _
      | str s =>
        simp only [callValue] at h
        injection h with h
        subst h
        exact domLe_rfl _
      | intV z =>
        simp only [callValue] at h
        injection h with h
        subst h
        exact domLe_rfl _
      | inst id =>
        simp only [callValue] at h
        injection h with h
        subst h
        exact domLe_rfl _
    have hblock : ∀ bs c st r, evalStmt (f + 1) (.block bs) c st = some r → DomLe st r.st := by
      intro bs c st r h
      simp only [evalStmt] at h
      have hq := ihQ bs _ _ _ h
      rw [List.head?_cons] at hq
      exact domLe_push_run hq
    have hstmt : ∀ s c st r, evalStmt (f + 1) s c st = some r → DomLeH c.head? st r.st := by
      intro s c st r h
      cases s with
      | exprStmt e =>
        simp only [evalStmt] at h
        refine ebindS_domLeH (fun r0 h0 => ihE e c st r0 h0) (fun st1 v r1 _ h1 => ?_) h
        injection h1 with h1
        subst h1
        exact domLe_toH _ (domLe_rfl _)
      | printS e =>
        simp only [evalStmt] at h
        refine ebindS_domLeH (fun r0 h0 => ihE e c st r0 h0) (fun st1 v r1 _ h1 => ?_) h
        injection h1 with h1
        subst h1
        exact domLe_toH _ (domLe_of_frames_eq rfl)
      | returnS ov =>
        simp only [evalStmt] at h
        split at h
        · injection h with h
          subst h
          exact domLe_toH _ (domLe_rfl _)
        · rename_i x
          refine ebindS_domLeH (fun r0 h0 => ihE x c st r0 h0) (fun st1 v r1 _ h1 => ?_) h
          injection h1 with h1
          subst h1
          exact domLe_toH _ (domLe_rfl _)
      | varDef n x =>
        simp only [evalStmt] at h
        refine ebindS_domLeH (fun r0 h0 => ihE x c st r0 h0) (fun st1 v r1 _ h1 => ?_) h
        injection h1 with h1
        subst h1
        exact domLeH_ctxVarDef c st1 n v
      | ifS cond t eb =>
        simp only [evalStmt] at h
        refine ebindS_domLeH (fun r0 h0 => ihE cond c st r0 h0) (fun st1 v r1 _ h1 => ?_) h
        split at h1
        · exact ihS t c st1 r1 h1
        · split at h1
          · exact ihS _ c st1 r1 h1
          · injection h1 with h1
            subst h1
            exact domLe_toH _ (domLe_rfl _)
      | whileS cond body =>
        simp only [evalStmt] at h
        refine ebindS_domLeH (fun r0 h0 => ihE cond c st r0 h0) (fun st1 v r1 _ h1 => ?_) h
        split at h1
        · refine sbind_domLeH (fun r0 h0 => ihS body c st1 r0 h0) (fun st2 r2 _ h2 => ?_) h1
          exact ihS (.whileS cond body) c st2 r2 h2
        · injection h1 with h1
          subst h1
          exact domLe_toH _ (domLe_rfl _)
      | block bs => exact domLe_toH _ (hblock bs c st r h)
      | functionS n ps body =>
        simp only [evalStmt] at h
        injection h with h
        subst h
        exact domLeH_ctxVarDef c st n _
      | classS n ms base =>
        simp only [evalStmt] at h
        split at h
        · injection h with h
          subst h
          exact domLe_toH _ (domLe_rfl _)
        · split at h
          · injection h with h
            subst h
            exact domLe_toH _ (domLe_rfl _)
          · split at h
            · injection h with h
              subst h
              exact domLe_toH _ (domLe_allocFrame st _)
            · injection h with h
              subst h
              exact domLe_toH _ (domLe_rfl _)
    have hseq : ∀ ss c st r, evalSeq (f + 1) ss c st = some r → DomLeH c.head? st r.st := by
      intro ss c st r h
      cases ss with
      | nil =>
        simp only [evalSeq] at h
        injection h with h
        subst h
        exact domLe_toH _ (domLe_rfl _)
      | cons s rest =>
        simp only [evalSeq] at h
        refine sbind_domLeH (fun r0 h0 => ihS s c st r0 h0) (fun st1 r1 _ h1 => ?_) h
        exact ihQ rest c st1 r1 h1
    exact ⟨hexpr, hargs, hcall, hstmt, hblock, hseq⟩

/-! ### The claims -/

/-- C1: the claim says evaluating a class declaration (with an absent or
class-valued base) builds the method functions, constructs a runtime class
carrying name, method table and base, declares it under its own name, and
returns it.  On the code this is impossible: runtime.py's
`LoxClass.__init__(self, name)` accepts only the name, so `Class.eval`'s
`LoxClass(self.name, methods, superclass)` raises TypeError for EVERY class
declaration — here shown for every base-less declaration: the result is a
TypeError with the state untouched (nothing is declared, nothing returned). -/
theorem claim1_class_decl_raises_type_error :
    ∀ (f : Nat) (name : String) (ms : List (String × List String × List Stmt))
      (c : Ctx) (st : St),
      evalStmt (f + 1) (.classS name ms none) c st = some (.err st .typeError) := by
  intro f name ms c st
  rfl

/-- C2: the claim says `super.NAME` resolves NAME along the superclass chain
via `get_method` and returns it bound to `this`.  On the code, whenever
`super` and `this` are present in the context, `superclass.get_method(...)`
raises AttributeError — runtime.py's LoxClass defines no `get_method` (and
LoxFunction no `bind`) — so no resolution or binding ever happens. -/
theorem claim2_super_access_raises_attribute_error :
    ∀ (f : Nat) (name : String) (c : Ctx) (st : St) (vs vt : Value),
      ctxGet c st "super" = some vs → ctxGet c st "this" = some vt →
      evalExpr (f + 1) (.superE name) c st = some (.err st .attributeError) := by
  intro f name c st vs vt hs ht
  simp [evalExpr, hs, ht]

/-- Witness for C2 at a concrete context binding `super` to a class and
`this` to an instance. -/
theorem claim2_witness :
    evalExpr 3 (.superE "foo") [0]
        ⟨[⟨[("super", .cls "A"), ("this", .inst 0)]⟩], [⟨.cls "A", []⟩], []⟩ =
      some (.err ⟨[⟨[("super", .cls "A"), ("this", .inst 0)]⟩], [⟨.cls "A", []⟩], []⟩
        .attributeError) :=
  claim2_super_access_raises_attribute_error 2 "foo" [0] _ (.cls "A") (.inst 0) rfl rfl

/-- C3: property reads.  Part one (matching the claim): a non-instance object
(nil, bool, number, string, class, function) is rejected with the generic
LoxError.  Part two (refuting the claim's fallback): on an instance whose
field map lacks the attribute (and which is not the `cls` slot), the read
raises AttributeError — there is no bound-method fallback, and runtime.py's
LoxClass carries no method table to fall back to. -/
theorem claim3_getattr_no_method_fallback :
    (∀ (f : Nat) (o : Expr) (a : String) (c : Ctx) (st st1 : St) (v : Value),
      evalExpr f o c st = some (.ok st1 v) → rejectedByGetattr v = true →
      evalExpr (f + 1) (.getattrE o a) c st = some (.err st1 .loxError))
    ∧
    (∀ (f : Nat) (o : Expr) (a : String) (c : Ctx) (st st1 : St) (id : Nat) (d : InstData),
      evalExpr f o c st = some (.ok st1 (.inst id)) → st1.insts[id]? = some d →
      alGet d.fields a = none → a ≠ "cls" →
      evalExpr (f + 1) (.getattrE o a) c st = some (.err st1 .attributeError)) := by
  constructor
  · intro f o a c st st1 v ho hv
    simp only [evalExpr, ebind, ho]
    cases v <;> simp_all [rejectedByGetattr]
  · intro f o a c st st1 id d ho hi hf ha
    simp [evalExpr, ebind, ho, hi, hf, ha]

/-- Witness for C3: `nil.x` is rejected with LoxError, and reading the absent
field `m` on a fresh instance raises AttributeError. -/
theorem claim3_witness :
    evalExpr 2 (.getattrE (.lit .nilL) "x") [] ⟨[], [], []⟩ =
      some (.err ⟨[], [], []⟩ .loxError) ∧
    evalExpr 2 (.getattrE (.var "obj") "m") [0]
        ⟨[⟨[("obj", .inst 0)]⟩], [⟨.cls "A", []⟩], []⟩ =
      some (.err ⟨[⟨[("obj", .inst 0)]⟩], [⟨.cls "A", []⟩], []⟩ .attributeError) :=
  ⟨claim3_getattr_no_method_fallback.1 1 _ "x" [] _ _ .nil rfl rfl,
   claim3_getattr_no_method_fallback.2 1 _ "m" [0] _ _ 0 ⟨.cls "A", []⟩ rfl rfl rfl
     (by decide)⟩

/-- C4: the claim says `!` returns the boolean opposite of Lox truthiness and
in particular that `!0` and `!""` are false.  The transformer wires `!` to
`lambda x: not x` — PYTHON truthiness — so `!0` and `!""` evaluate to true;
runtime.py's unused helper `not_` would have given the claimed false. -/
theorem claim4_bang_uses_python_truthiness :
    evalExpr 2 (LoxTransformer.not_ (.lit (.numL 0))) [] ⟨[], [], []⟩ =
      some (.ok ⟨[], [], []⟩ (.bool true)) ∧
    evalExpr 2 (LoxTransformer.not_ (.lit (.strL ""))) [] ⟨[], [], []⟩ =
      some (.ok ⟨[], [], []⟩ (.bool true)) ∧
    not_ (.num 0) = .bool false ∧
    not_ (.str "") = .bool false :=
  ⟨rfl, rfl, rfl, rfl⟩

/-- C5 counterexample: the claim says number division by zero does not fail
and yields an IEEE infinity or NaN; on the code `1 / 0` raises
ZeroDivisionError (Python float division raises on a zero divisor). -/
theorem claim5_counterexample_div_by_zero_raises :
    truediv (.num 1) (.num 0) = Except.error PyErr.zeroDivision := rfl

/-- C5 (amended): division of two numbers raises ZeroDivisionError when the
divisor is zero — `truediv` itself performs no special zero rejection, the
failure comes from the host division — and returns the quotient otherwise. -/
theorem claim5_division_by_zero :
    ∀ a b : ℚ, truediv (.num a) (.num b) =
      if b = 0 then Except.error PyErr.zeroDivision
      else Except.ok (.num (a / b)) := by
  intro a b
  rfl

/-- C6 counterexample: the claim says the validation pass rejects an
assignment whose target is a reserved keyword; on the code `Assign` has no
validate_self at all, so the program `super = nil;` passes validation. -/
theorem claim6_counterexample_assign_keyword_passes :
    validateProgram [.exprStmt (.assign "super" (.lit .nilL))] = none := rfl

/-- C6 (amended): the validation pass performs NO keyword check on assignment
targets (Var references and VarDef declarations are checked, Assign is not):
a program assigning to any reserved keyword passes validation, and the
assignment is evaluated — here reassigning an existing binding of the
keyword succeeds at runtime. -/
theorem claim6_assign_target_not_validated :
    ∀ kw : String, kw ∈ KEYWORDS →
      validateProgram [.exprStmt (.assign kw (.lit (.numL 1)))] = none ∧
      evalStmt 3 (.exprStmt (.assign kw (.lit (.numL 1)))) [0]
          ⟨[⟨[(kw, .nil)]⟩], [], []⟩ =
        some (.norm ⟨[⟨[(kw, .num 1)]⟩], [], []⟩) := by
  intro kw _
  constructor
  · rfl
  · simp [evalStmt, evalExpr, ebindS, ebind, ctxAssign, alAssign, St.setFrame, litValue]

/-- Witness for C6 at the keyword `super`. -/
theorem claim6_witness :
    validateProgram [.exprStmt (.assign "super" (.lit (.numL 1)))] = none ∧
    evalStmt 3 (.exprStmt (.assign "super" (.lit (.numL 1)))) [0]
        ⟨[⟨[("super", .nil)]⟩], [], []⟩ =
      some (.norm ⟨[⟨[("super", .num 1)]⟩], [], []⟩) :=
  claim6_assign_target_not_validated "super" (by decide)

/-- C7: the frame a Block pushes — and the argument frame a function call
pushes — is popped on every exit path (normal, runtime failure, non-local
return): for any outcome `r` whatsoever, a name unbound in every
pre-existing frame is still unresolvable through the caller's chain in the
resulting state, i.e. the pushed frames never leak into that chain. -/
theorem claim7_scope_frame_restored :
    (∀ (f : Nat) (bs : List Stmt) (c : Ctx) (st : St) (r : SRes) (n : String),
      evalStmt f (.block bs) c st = some r →
      (∀ fid, fid ∈ c → fid < st.frames.length) →
      (∀ fid, fid < st.frames.length → st.frameGet fid n = none) →
      ctxGet c r.st n = none)
    ∧
    (∀ (f : Nat) (callee : Expr) (args : List Expr) (c : Ctx) (st : St) (r : ERes) (n : String),
      evalExpr f (.call callee args) c st = some r →
      (∀ fid, fid ∈ c → fid < st.frames.length) →
      (∀ fid, fid < st.frames.length → st.frameGet fid n = none) →
      ctxGet c r.st n = none) := by
  constructor
  · intro f bs c st r n h hwf hn
    have hd := (evalDom f).2.2.2.2.1 bs c st r h
    exact ctxGet_eq_none fun fid hm => hd.2 fid n (hwf fid hm) (hn fid (hwf fid hm))
  · intro f callee args c st r n h hwf hn
    have hd := (evalDom f).1 _ c st r h
    exact ctxGet_eq_none fun fid hm => hd.2 fid n (hwf fid hm) (hn fid (hwf fid hm))

/-- Witness for C7: a block declaring `x` leaves `x` invisible afterwards,
and calling a function whose body declares `y` leaves `y` invisible in the
caller's chain. -/
theorem claim7_witness :
    ctxGet [0] ⟨[⟨[]⟩, ⟨[("x", Value.nil)]⟩], [], []⟩ "x" = none ∧
    ctxGet [0] ⟨[⟨[("g", .fn ⟨"g", [], [.varDef "y" (.lit .nilL)], [0]⟩)]⟩,
        ⟨[("y", Value.nil)]⟩], [], []⟩ "y" = none := by
  constructor
  · exact claim7_scope_frame_restored.1 5 [.varDef "x" (.lit .nilL)] [0]
      ⟨[⟨[]⟩], [], []⟩ _ "x" rfl
      (by
        intro fid hm
        simp at hm
        subst hm
        decide)
      (by
        intro fid hf
        simp at hf
        subst hf
        rfl)
  · exact claim7_scope_frame_restored.2 6 (.var "g") [] [0]
      ⟨[⟨[("g", .fn ⟨"g", [], [.varDef "y" (.lit .nilL)], [0]⟩)]⟩], [], []⟩ _ "y" rfl
      (by
        intro fid hm
        simp at hm
        subst hm
        decide)
      (by
        intro fid hf
        simp at hf
        subst hf
        rfl)

/-- C8: logical short-circuiting.  When the left operand of `and` is not
truthy, its raw value is the whole result for EVERY right operand (so the
right operand, effects and failures included, is never evaluated);
symmetrically `or` with a truthy left returns the raw left value; otherwise
the result is exactly the right operand's evaluation. -/
theorem claim8_logical_short_circuit :
    (∀ (f : Nat) (l r : Expr) (c : Ctx) (st st1 : St) (v : Value),
      evalExpr f l c st = some (.ok st1 v) → truthy v = false →
      evalExpr (f + 1) (.andE l r) c st = some (.ok st1 v))
    ∧ (∀ (f : Nat) (l r : Expr) (c : Ctx) (st st1 : St) (v : Value),
      evalExpr f l c st = some (.ok st1 v) → truthy v = true →
      evalExpr (f + 1) (.orE l r) c st = some (.ok st1 v))
    ∧ (∀ (f : Nat) (l r : Expr) (c : Ctx) (st st1 : St) (v : Value),
      evalExpr f l c st = some (.ok st1 v) → truthy v = true →
      evalExpr (f + 1) (.andE l r) c st = evalExpr f r c st1)
    ∧ (∀ (f : Nat) (l r : Expr) (c : Ctx) (st st1 : St) (v : Value),
      evalExpr f l c st = some (.ok st1 v) → truthy v = false →
      evalExpr (f + 1) (.orE l r) c st = evalExpr f r c st1) := by
  refine ⟨?_, ?_, ?_, ?_⟩ <;>
    (intro f l r c st st1 v hl ht; simp [evalExpr, ebind, hl, ht])

/-- Witness for C8: `false and (1/0)` is false and `true or (1/0)` is true,
with no division failure raised. -/
theorem claim8_witness :
    evalExpr 2 (.andE (.lit (.boolL false))
        (LoxTransformer.div (.lit (.numL 1)) (.lit (.numL 0)))) [] ⟨[], [], []⟩ =
      some (.ok ⟨[], [], []⟩ (.bool false)) ∧
    evalExpr 2 (.orE (.lit (.boolL true))
        (LoxTransformer.div (.lit (.numL 1)) (.lit (.numL 0)))) [] ⟨[], [], []⟩ =
      some (.ok ⟨[], [], []⟩ (.bool true)) :=
  ⟨claim8_logical_short_circuit.1 1 _ _ [] _ _ (.bool false) rfl rfl,
   claim8_logical_short_circuit.2.1 1 _ _ [] _ _ (.bool true) rfl rfl⟩

set_option maxHeartbeats 4000000 in
/-- C9: the counted-loop desugaring produces exactly
`Block [init, While cond (Block [body, incr])]`, the omitted condition and
increment default to the true and nil literals, and the spec's example
`for (var i = 0; i < 3; i = i + 1) print i;` prints 0, 1, 2 in order while
`i` is out of scope afterwards (a following `print i;` fails with a
NameError after that output). -/
theorem claim9_for_desugaring :
    (∀ (init : Stmt) (cond incr : Expr) (body : Stmt),
      LoxTransformer.for_cmd init cond incr body =
        .block [init, .whileS cond (.block [body, .exprStmt incr])])
    ∧ LoxTransformer.maybe_cond none = .lit (.boolL true)
    ∧ LoxTransformer.maybe_incr none = .lit .nilL
    ∧ (evalSeq 30 [forExample, .printS (.var "i")] [0] ⟨[⟨[]⟩], [], []⟩).map
        (fun r => (r.st.output, r.errOf)) = some (["0", "1", "2"], some .nameError) := by
  refine ⟨fun _ _ _ _ => rfl, rfl, rfl, ?_⟩
  have h01 : (0:ℚ) + 1 = 1 := by norm_num
  have h12 : (1:ℚ) + 1 = 2 := by norm_num
  have h23 : (2:ℚ) + 1 = 3 := by norm_num
  have hd0 : decide ((0:ℚ) < 3) = true := rfl
  have hd1 : decide ((1:ℚ) < 3) = true := rfl
  have hd2 : decide ((2:ℚ) < 3) = true := rfl
  have hd3 : decide ((3:ℚ) < 3) = false := rfl
  have ht0 : toString (0:ℤ) = "0" := rfl
  have ht1 : toString (1:ℤ) = "1" := rfl
  have ht2 : toString (2:ℤ) = "2" := rfl
  simp [evalSeq, evalStmt, evalExpr, forExample, LoxTransformer.for_cmd, ebind, ebindS,
    sbind, ctxGet, ctxVarDef, ctxAssign, St.frameGet, St.setFrame, St.allocFrame,
    alGet, alSet, alAssign, applyBin, add, lt, ensureNumber, truthy, litValue,
    showValue, SRes.st, SRes.errOf, h01, h12, h23, hd0, hd1, hd2, hd3, ht0, ht1, ht2]

/-- C10: calling a class value with any argument list never fails and checks
no arity: the arguments do not appear in the result, no `init` runs, and the
result is a freshly allocated instance whose `cls` slot references the class
and whose field map is empty. -/
theorem claim10_class_call_ignores_args :
    ∀ (f : Nat) (n : String) (args : List Value) (st : St),
      callValue (f + 1) (.cls n) args st =
        some (.ok { st with insts := st.insts ++ [⟨.cls n, []⟩] }
          (.inst st.insts.length)) := by
  intro f n args st
  rfl

end Lox
